import Mathlib

/-!  Verification of the community-feed data layer of the farmerpro app.

The definitions below are a shallow embedding of the firebase stub layer in
`src/app/loginpg.tsx` (functions `fetchPosts`, `createPost`, `toggleReaction`,
`fetchComments`, `addComment` over the module-level state `_stubPosts` and
`_stubComments`) together with the record types `Post` and `Comment` from
`src/src/types/communityTypes.ts`.  JavaScript numbers holding integral values
(counts, millisecond timestamps) are modelled as `Int`; the `_stubComments`
object is modelled as an association list whose missing keys read as `[]`.
-/

namespace FarmerPro

/-- Media kind of a post attachment (source: `mediaType: "image" | "video" | null`). -/
inductive MediaType where
  | image
  | video
deriving DecidableEq

/-- Reaction kind (source: `reaction: "like" | "dislike"`). -/
inductive Reaction where
  | like
  | dislike
deriving DecidableEq

/-- Post record (source: `interface Post` in communityTypes). -/
structure Post where
  id : String
  authorId : String
  authorName : String
  title : String
  description : String
  mediaUrl : Option String
  mediaType : Option MediaType
  likeCount : Int
  dislikeCount : Int
  likedBy : List String
  dislikedBy : List String
  commentCount : Int
  createdAt : Int
deriving DecidableEq

/-- Comment record (source: `interface Comment` in communityTypes; comments carry no
    back-reference field, they are keyed by post id in `_stubComments`). -/
structure Comment where
  id : String
  authorId : String
  authorName : String
  text : String
  createdAt : Int
deriving DecidableEq

/-- Comment draft as passed to `addComment` (source type: `Omit<Comment, "id">`). -/
structure CommentDraft where
  authorId : String
  authorName : String
  text : String
  createdAt : Int
deriving DecidableEq

/-- Post draft as passed to `createPost` (source type: `Omit<Post, "id">`). -/
structure PostDraft where
  authorId : String
  authorName : String
  title : String
  description : String
  mediaUrl : Option String
  mediaType : Option MediaType
  likeCount : Int
  dislikeCount : Int
  likedBy : List String
  dislikedBy : List String
  commentCount : Int
  createdAt : Int
deriving DecidableEq

/-- The stub module state: the arrays `_stubPosts` and `_stubComments`.  The latter is
    a JS object keyed by post id; a missing key reads as `[]`. -/
structure StubState where
  posts : List Post
  comments : List (String × List Comment)
deriving DecidableEq

/-- Initial module state: `_stubPosts = []`, `_stubComments = {}` (see the module-level
    initialisers in loginpg.tsx). -/
def initState : StubState := { posts := [], comments := [] }

/-- Reads `_stubComments[postId] || []`: the comment log stored under a post id,
    or the empty log when the key is absent. -/
def lookupComments : List (String × List Comment) → String → List Comment
  | [], _ => []
  | e :: rest, postId => if e.fst = postId then e.snd else lookupComments rest postId

/-- Writes `_stubComments[postId] = cs`: replaces the binding for `postId`, adding it
    at the end when absent (JS object keys are unique). -/
def setComments : List (String × List Comment) → String → List Comment →
    List (String × List Comment)
  | [], postId, cs => [(postId, cs)]
  | e :: rest, postId, cs =>
    if e.fst = postId then (postId, cs) :: rest else e :: setComments rest postId cs

/-- Source expression `_stubPosts.find((p) => p.id === postId)`: the first stored post
    whose id matches, if any. -/
def findPost : List Post → String → Option Post
  | [], _ => none
  | p :: rest, postId => if p.id = postId then some p else findPost rest postId

/-- Effect of mutating, in place, the object returned by `_stubPosts.find`: the first
    list entry whose id matches is replaced by its image under `f`; every other entry
    is untouched. -/
def updateFirst : List Post → String → (Post → Post) → List Post
  | [], _, _ => []
  | p :: rest, postId, f =>
    if p.id = postId then f p :: rest else p :: updateFirst rest postId f

/-- Comparator of the source `fetchPosts` sort: `(a, b) => b.createdAt - a.createdAt`
    orders `a` before `b` exactly when `b.createdAt ≤ a.createdAt`. -/
def postLe (a b : Post) : Bool := b.createdAt ≤ a.createdAt

/-- Source `fetchPosts`: a copy of `_stubPosts` sorted by `createdAt` descending
    (`Array.prototype.sort` is stable, as is `List.mergeSort`). -/
def fetchPosts (s : StubState) : List Post :=
  s.posts.mergeSort postLe

/-- Source `createPost`: mints the id `post_<Date.now()>` (the parameter `now` is the
    clock reading taken inside the function), unshifts the new post onto `_stubPosts`
    and returns the id. -/
def createPost (s : StubState) (post : PostDraft) (now : Int) : String × StubState :=
  let newId := "post_" ++ toString now
  let newPost : Post :=
    { id := newId, authorId := post.authorId, authorName := post.authorName,
      title := post.title, description := post.description, mediaUrl := post.mediaUrl,
      mediaType := post.mediaType, likeCount := post.likeCount,
      dislikeCount := post.dislikeCount, likedBy := post.likedBy,
      dislikedBy := post.dislikedBy, commentCount := post.commentCount,
      createdAt := post.createdAt }
  (newId, { s with posts := newPost :: s.posts })

/-- The four post fields addressed through the computed keys `byKey`, `countKey`,
    `otherKey`, `otherCountKey` in the source `toggleReaction`: the membership list and
    count matching the toggled reaction (`target`) and the opposite pair (`other`). -/
structure ReactionFields where
  target : List String
  tCount : Int
  other : List String
  oCount : Int
deriving DecidableEq

/-- Body of the source `toggleReaction` acting on the selected field quadruple:
    un-react when the user is already in the target list (filter out, decrement with a
    floor at 0), otherwise append to the target list, increment its count, and when the
    user sits in the opposite list remove it there and decrement that count
    (floor at 0). -/
def toggleCore (f : ReactionFields) (userId : String) : ReactionFields :=
  if userId ∈ f.target then
    { f with target := f.target.filter (fun id => id != userId),
             tCount := max 0 (f.tCount - 1) }
  else
    let f1 := { f with target := f.target ++ [userId], tCount := f.tCount + 1 }
    if userId ∈ f1.other then
      { f1 with other := f1.other.filter (fun id => id != userId),
                oCount := max 0 (f1.oCount - 1) }
    else f1

/-- One application of the source `toggleReaction` body to the located post: the string
    key computation `` `${reaction}dBy` ``/`` `${reaction}Count` `` resolves to the like
    pair for `like` and to the dislike pair for `dislike`. -/
def applyReaction (p : Post) (userId : String) (reaction : Reaction) : Post :=
  match reaction with
  | .like =>
    let r := toggleCore
      { target := p.likedBy, tCount := p.likeCount,
        other := p.dislikedBy, oCount := p.dislikeCount } userId
    { p with likedBy := r.target, likeCount := r.tCount,
             dislikedBy := r.other, dislikeCount := r.oCount }
  | .dislike =>
    let r := toggleCore
      { target := p.dislikedBy, tCount := p.dislikeCount,
        other := p.likedBy, oCount := p.likeCount } userId
    { p with dislikedBy := r.target, dislikeCount := r.tCount,
             likedBy := r.other, likeCount := r.oCount }

/-- Source `toggleReaction`: locate the post (`find`); silently return when absent
    (`if (!post) return;`); otherwise toggle the matching reaction fields of the found
    post in place. -/
def toggleReaction (s : StubState) (postId userId : String) (reaction : Reaction) :
    StubState :=
  match findPost s.posts postId with
  | none => s
  | some _ =>
    { s with posts := updateFirst s.posts postId (fun p => applyReaction p userId reaction) }

/-- Comparator of the source `fetchComments` sort: ascending `createdAt`. -/
def commentLe (a b : Comment) : Bool := a.createdAt ≤ b.createdAt

/-- Source `fetchComments`: `(_stubComments[postId] || [])` sorted ascending by
    `createdAt`. -/
def fetchComments (s : StubState) (postId : String) : List Comment :=
  (lookupComments s.comments postId).mergeSort commentLe

/-- Source `addComment`: mint the id `cmt_<Date.now()>`, push the comment onto
    `_stubComments[postId]` (creating the entry when absent), then, when a post with
    this id exists, set its `commentCount` to the length of the stored log. -/
def addComment (s : StubState) (postId : String) (c : CommentDraft) (now : Int) :
    StubState :=
  let newComment : Comment :=
    { id := "cmt_" ++ toString now, authorId := c.authorId, authorName := c.authorName,
      text := c.text, createdAt := c.createdAt }
  let log := lookupComments s.comments postId ++ [newComment]
  { posts := updateFirst s.posts postId (fun p => { p with commentCount := (log.length : Int) }),
    comments := setComments s.comments postId log }

/-- Error taxonomy of the specification.  The stub implementations never throw: every
    execution path of `toggleReaction` and `addComment` resolves the returned promise
    normally, which the outcome views below make explicit. -/
inductive FeedError where
  | NotFound
  | EmptyText
  | StorageFailure
deriving DecidableEq

/-- Outcome view of `toggleReaction`: the source body contains no throw or reject on
    any path, so the promise always resolves and no error is ever signalled. -/
def toggleReactionOutcome (s : StubState) (postId userId : String) (reaction : Reaction) :
    Except FeedError StubState :=
  Except.ok (toggleReaction s postId userId reaction)

/-- Outcome view of `addComment`: the source body contains no throw or reject on any
    path (there is no empty-text check and no post-existence check), so the promise
    always resolves and no error is ever signalled. -/
def addCommentOutcome (s : StubState) (postId : String) (c : CommentDraft) (now : Int) :
    Except FeedError StubState :=
  Except.ok (addComment s postId c now)

/-- The post draft built by the create-post screen (`submit` in loginpg.tsx): reaction
    fields and `commentCount` zero-initialised, `createdAt` the caller clock reading. -/
def submitDraft (authorId authorName title description : String)
    (mediaUrl : Option String) (mediaType : Option MediaType) (createdAt : Int) :
    PostDraft :=
  { authorId := authorId, authorName := authorName, title := title,
    description := description, mediaUrl := mediaUrl, mediaType := mediaType,
    likeCount := 0, dislikeCount := 0, likedBy := [], dislikedBy := [],
    commentCount := 0, createdAt := createdAt }

/-- One store operation as issued by the application.  The create variant carries the
    fields the create-post screen fills in plus the two clock readings involved
    (`createdAt` taken in the caller, `now` taken inside `createPost` to mint the id). -/
inductive Op where
  | create (authorId authorName title description : String)
      (mediaUrl : Option String) (mediaType : Option MediaType) (createdAt now : Int)
  | react (postId userId : String) (reaction : Reaction)
  | comment (postId : String) (c : CommentDraft) (now : Int)

/-- Effect of one operation on the stub state. -/
def step (s : StubState) : Op → StubState
  | .create a an t d mu mt ca now => (createPost s (submitDraft a an t d mu mt ca) now).2
  | .react pid uid r => toggleReaction s pid uid r
  | .comment pid c now => addComment s pid c now

/-- Effect of a sequence of operations, first to last. -/
def runOps (s : StubState) (ops : List Op) : StubState := ops.foldl step s

/-- A sequence of same-post, same-user reaction toggles. -/
def toggleMany (s : StubState) (postId userId : String) (rs : List Reaction) : StubState :=
  rs.foldl (fun t r => toggleReaction t postId userId r) s

/-- Number of distinct user identifiers in a reaction membership list.  `likedBy` and
    `dislikedBy` denote sets of user ids in the data model, so cardinality counts each
    identifier once. -/
def userCard (l : List String) : Nat := l.toFinset.card

/-- Count-cardinality invariant of a single post: each reaction count equals the
    cardinality of the corresponding membership set. -/
def CountInv (p : Post) : Prop :=
  p.likeCount = (userCard p.likedBy : Int) ∧ p.dislikeCount = (userCard p.dislikedBy : Int)

instance (p : Post) : Decidable (CountInv p) := by
  unfold CountInv
  exact inferInstance

/-- Mutual-exclusion property for one user on one post. -/
def atMostOne (u : String) (p : Post) : Prop := ¬(u ∈ p.likedBy ∧ u ∈ p.dislikedBy)

instance (u : String) (p : Post) : Decidable (atMostOne u p) := by
  unfold atMostOne
  exact inferInstance

/-- The opposite membership list for a reaction kind. -/
def otherList (k : Reaction) (p : Post) : List String :=
  match k with
  | .like => p.dislikedBy
  | .dislike => p.likedBy

/-- Freshness of the id minted by a create operation at the state it runs in: no stored
    post and no stored comment log already uses `post_<now>`. -/
def freshHead (s : StubState) : Op → Bool
  | .create _ _ _ _ _ _ _ now =>
    decide (("post_" ++ toString now) ∉ s.posts.map Post.id) &&
    decide (lookupComments s.comments ("post_" ++ toString now) = [])
  | _ => true

/-- Every create operation along the run mints a fresh id. -/
def freshCreates : StubState → List Op → Bool
  | _, [] => true
  | s, op :: rest => freshHead s op && freshCreates (step s op) rest

/-! ### Membership and cardinality lemmas for the filter/append operations of the
reaction body -/

theorem not_mem_filter_bne (l : List String) (u : String) :
    u ∉ l.filter (fun id => id != u) := by
  simp [List.mem_filter]

theorem mem_filter_bne_iff (l : List String) (u w : String) (h : w ≠ u) :
    w ∈ l.filter (fun id => id != u) ↔ w ∈ l := by
  simp [List.mem_filter, h]

theorem filter_bne_of_not_mem (l : List String) (u : String) (h : u ∉ l) :
    l.filter (fun id => id != u) = l := by
  apply List.filter_eq_self.mpr
  intro a ha
  simp only [bne_iff_ne, ne_eq, decide_eq_true_eq]
  intro hau
  exact h (hau ▸ ha)

theorem toFinset_filter_bne (l : List String) (u : String) :
    (l.filter (fun id => id != u)).toFinset = l.toFinset.erase u := by
  ext a
  simp [List.mem_filter, Finset.mem_erase, and_comm]

theorem toFinset_append_singleton (l : List String) (u : String) :
    (l ++ [u]).toFinset = insert u l.toFinset := by
  ext a
  simp [or_comm]

theorem userCard_filter_add_one (l : List String) (u : String) (h : u ∈ l) :
    userCard (l.filter (fun id => id != u)) + 1 = userCard l := by
  unfold userCard
  rw [toFinset_filter_bne]
  exact Finset.card_erase_add_one (List.mem_toFinset.mpr h)

theorem userCard_append (l : List String) (u : String) (h : u ∉ l) :
    userCard (l ++ [u]) = userCard l + 1 := by
  unfold userCard
  rw [toFinset_append_singleton]
  exact Finset.card_insert_of_not_mem (fun hc => h (List.mem_toFinset.mp hc))

theorem userCard_pos (l : List String) (u : String) (h : u ∈ l) : 1 ≤ userCard l := by
  have := userCard_filter_add_one l u h
  omega

/-! ### Behaviour of the reaction core on the selected field quadruple -/

theorem toggleCore_excl (f : ReactionFields) (u : String) :
    u ∉ (toggleCore f u).target ∨ u ∉ (toggleCore f u).other := by
  by_cases h1 : u ∈ f.target
  · left
    simp only [toggleCore, if_pos h1]
    exact not_mem_filter_bne _ _
  · by_cases h2 : u ∈ f.other
    · right
      simp only [toggleCore, if_neg h1, if_pos h2]
      exact not_mem_filter_bne _ _
    · right
      simp only [toggleCore, if_neg h1, if_neg h2]
      exact h2

theorem toggleCore_counts (f : ReactionFields) (u : String)
    (ht : f.tCount = (userCard f.target : Int)) (ho : f.oCount = (userCard f.other : Int)) :
    (toggleCore f u).tCount = (userCard (toggleCore f u).target : Int) ∧
    (toggleCore f u).oCount = (userCard (toggleCore f u).other : Int) := by
  by_cases h1 : u ∈ f.target
  · have hc := userCard_filter_add_one f.target u h1
    simp only [toggleCore, if_pos h1]
    refine ⟨?_, ho⟩
    omega
  · by_cases h2 : u ∈ f.other
    · have hc := userCard_filter_add_one f.other u h2
      have ha := userCard_append f.target u h1
      simp only [toggleCore, if_neg h1, if_pos h2]
      constructor
      · omega
      · omega
    · have ha := userCard_append f.target u h1
      simp only [toggleCore, if_neg h1, if_neg h2]
      exact ⟨by omega, ho⟩

theorem toggleCore_pair (f : ReactionFields) (u : String)
    (hno : u ∉ f.other) (ht : f.tCount = (userCard f.target : Int)) :
    (toggleCore (toggleCore f u) u).other = f.other ∧
    (toggleCore (toggleCore f u) u).oCount = f.oCount ∧
    (toggleCore (toggleCore f u) u).tCount = f.tCount ∧
    (u ∈ (toggleCore (toggleCore f u) u).target ↔ u ∈ f.target) := by
  by_cases h1 : u ∈ f.target
  · have hp := userCard_pos f.target u h1
    have hmem : u ∉ f.target.filter (fun id => id != u) := not_mem_filter_bne _ _
    simp only [toggleCore, if_pos h1, if_neg hmem, if_neg hno]
    refine ⟨by trivial, by trivial, by omega, by simp [h1]⟩
  · have hmem : u ∈ f.target ++ [u] := by simp
    have hfilter : (f.target ++ [u]).filter (fun id => id != u) = f.target := by
      rw [List.filter_append]
      simp [filter_bne_of_not_mem f.target u h1]
    simp only [toggleCore, if_neg h1, if_neg hno, if_pos hmem]
    refine ⟨by trivial, by trivial, by omega, by simp [hfilter, h1, not_mem_filter_bne]⟩

theorem toggleCore_switch (f : ReactionFields) (u : String)
    (h1 : u ∈ f.other) (h2 : u ∉ f.target) (ho : f.oCount = (userCard f.other : Int)) :
    u ∈ (toggleCore f u).target ∧ u ∉ (toggleCore f u).other ∧
    (toggleCore f u).tCount = f.tCount + 1 ∧ (toggleCore f u).oCount = f.oCount - 1 := by
  have hc := userCard_filter_add_one f.other u h1
  simp only [toggleCore, if_neg h2, if_pos h1]
  refine ⟨by simp, not_mem_filter_bne _ _, by trivial, by omega⟩

/-! ### Lifting the core to whole posts -/

theorem applyReaction_frame (p : Post) (u : String) (r : Reaction) :
    (applyReaction p u r).id = p.id ∧
    (applyReaction p u r).authorId = p.authorId ∧
    (applyReaction p u r).authorName = p.authorName ∧
    (applyReaction p u r).title = p.title ∧
    (applyReaction p u r).description = p.description ∧
    (applyReaction p u r).mediaUrl = p.mediaUrl ∧
    (applyReaction p u r).mediaType = p.mediaType ∧
    (applyReaction p u r).commentCount = p.commentCount ∧
    (applyReaction p u r).createdAt = p.createdAt := by
  cases r <;> simp [applyReaction]

theorem applyReaction_id (p : Post) (u : String) (r : Reaction) :
    (applyReaction p u r).id = p.id :=
  (applyReaction_frame p u r).1

theorem applyReaction_commentCount (p : Post) (u : String) (r : Reaction) :
    (applyReaction p u r).commentCount = p.commentCount :=
  (applyReaction_frame p u r).2.2.2.2.2.2.2.1

theorem countInv_applyReaction (p : Post) (u : String) (r : Reaction) (h : CountInv p) :
    CountInv (applyReaction p u r) := by
  cases r
  · have := toggleCore_counts
      { target := p.likedBy, tCount := p.likeCount,
        other := p.dislikedBy, oCount := p.dislikeCount } u h.1 h.2
    exact ⟨this.1, this.2⟩
  · have := toggleCore_counts
      { target := p.dislikedBy, tCount := p.dislikeCount,
        other := p.likedBy, oCount := p.likeCount } u h.2 h.1
    exact ⟨this.2, this.1⟩

theorem atMostOne_applyReaction (p : Post) (u : String) (r : Reaction) :
    atMostOne u (applyReaction p u r) := by
  cases r
  · have := toggleCore_excl
      { target := p.likedBy, tCount := p.likeCount,
        other := p.dislikedBy, oCount := p.dislikeCount } u
    intro hc
    rcases this with h | h
    · exact h hc.1
    · exact h hc.2
  · have := toggleCore_excl
      { target := p.dislikedBy, tCount := p.dislikeCount,
        other := p.likedBy, oCount := p.likeCount } u
    intro hc
    rcases this with h | h
    · exact h hc.2
    · exact h hc.1

/-! ### Locating and updating posts -/

theorem findPost_some (posts : List Post) (pid : String) (p : Post)
    (h : findPost posts pid = some p) : p ∈ posts ∧ p.id = pid := by
  induction posts with
  | nil => simp [findPost] at h
  | cons q rest ih =>
    by_cases hq : q.id = pid
    · simp only [findPost, if_pos hq] at h
      cases h
      exact ⟨List.mem_cons_self _ _, hq⟩
    · simp only [findPost, if_neg hq] at h
      have := ih h
      exact ⟨List.mem_cons_of_mem _ this.1, this.2⟩

theorem findPost_eq_none (posts : List Post) (pid : String) :
    findPost posts pid = none ↔ ∀ p ∈ posts, p.id ≠ pid := by
  induction posts with
  | nil => simp [findPost]
  | cons q rest ih =>
    by_cases hq : q.id = pid
    · simp [findPost, hq]
    · simp [findPost, hq, ih]

theorem updateFirst_of_forall_ne (posts : List Post) (pid : String) (f : Post → Post)
    (h : ∀ p ∈ posts, p.id ≠ pid) : updateFirst posts pid f = posts := by
  induction posts with
  | nil => rfl
  | cons q rest ih =>
    have hq : q.id ≠ pid := h q (List.mem_cons_self _ _)
    simp only [updateFirst, if_neg hq]
    rw [ih (fun p hp => h p (List.mem_cons_of_mem _ hp))]

theorem findPost_updateFirst (posts : List Post) (pid : String) (f : Post → Post)
    (hf : ∀ p, (f p).id = p.id) :
    findPost (updateFirst posts pid f) pid = (findPost posts pid).map f := by
  induction posts with
  | nil => rfl
  | cons q rest ih =>
    by_cases hq : q.id = pid
    · have : (f q).id = pid := by rw [hf q, hq]
      simp [updateFirst, findPost, hq, this]
    · simp [updateFirst, findPost, hq, ih]

theorem map_id_updateFirst (posts : List Post) (pid : String) (f : Post → Post)
    (hf : ∀ p, (f p).id = p.id) :
    (updateFirst posts pid f).map Post.id = posts.map Post.id := by
  induction posts with
  | nil => rfl
  | cons q rest ih =>
    by_cases hq : q.id = pid
    · simp [updateFirst, hq, hf q]
    · simp [updateFirst, hq, ih]

theorem mem_updateFirst (posts : List Post) (pid : String) (f : Post → Post) (q : Post)
    (h : q ∈ updateFirst posts pid f) :
    q ∈ posts ∨ ∃ p, p ∈ posts ∧ p.id = pid ∧ q = f p := by
  induction posts with
  | nil => simp [updateFirst] at h
  | cons r rest ih =>
    by_cases hr : r.id = pid
    · simp only [updateFirst, if_pos hr] at h
      rcases List.mem_cons.mp h with hq | hq
      · exact Or.inr ⟨r, List.mem_cons_self _ _, hr, hq⟩
      · exact Or.inl (List.mem_cons_of_mem _ hq)
    · simp only [updateFirst, if_neg hr] at h
      rcases List.mem_cons.mp h with hq | hq
      · exact Or.inl (hq ▸ List.mem_cons_self _ _)
      · rcases ih hq with hq2 | ⟨p, hp, hpid, hqf⟩
        · exact Or.inl (List.mem_cons_of_mem _ hq2)
        · exact Or.inr ⟨p, List.mem_cons_of_mem _ hp, hpid, hqf⟩

theorem mem_updateFirst_nodup (posts : List Post) (pid : String) (f : Post → Post) (q : Post)
    (hnd : (posts.map Post.id).Nodup) (h : q ∈ updateFirst posts pid f) :
    (q ∈ posts ∧ q.id ≠ pid) ∨ ∃ p, p ∈ posts ∧ p.id = pid ∧ q = f p := by
  induction posts with
  | nil => simp [updateFirst] at h
  | cons r rest ih =>
    have hnd2 : (rest.map Post.id).Nodup := (List.nodup_cons.mp hnd).2
    have hrid : r.id ∉ rest.map Post.id := (List.nodup_cons.mp hnd).1
    by_cases hr : r.id = pid
    · simp only [updateFirst, if_pos hr] at h
      rcases List.mem_cons.mp h with hq | hq
      · exact Or.inr ⟨r, List.mem_cons_self _ _, hr, hq⟩
      · refine Or.inl ⟨List.mem_cons_of_mem _ hq, ?_⟩
        intro hqid
        apply hrid
        rw [hr, ← hqid]
        exact List.mem_map_of_mem Post.id hq
    · simp only [updateFirst, if_neg hr] at h
      rcases List.mem_cons.mp h with hq | hq
      · exact Or.inl ⟨hq ▸ List.mem_cons_self _ _, hq ▸ hr⟩
      · rcases ih hnd2 hq with ⟨hq2, hq3⟩ | ⟨p, hp, hpid, hqf⟩
        · exact Or.inl ⟨List.mem_cons_of_mem _ hq2, hq3⟩
        · exact Or.inr ⟨p, List.mem_cons_of_mem _ hp, hpid, hqf⟩

theorem forall2_updateFirst (posts : List Post) (pid : String) (f : Post → Post)
    (R : Post → Post → Prop) (hrefl : ∀ p, R p p) (hf : ∀ p, p.id = pid → R p (f p)) :
    List.Forall₂ R posts (updateFirst posts pid f) := by
  induction posts with
  | nil => exact List.Forall₂.nil
  | cons q rest ih =>
    by_cases hq : q.id = pid
    · simp only [updateFirst, if_pos hq]
      exact List.Forall₂.cons (hf q hq) (List.forall₂_same.mpr (fun p _ => hrefl p))
    · simp only [updateFirst, if_neg hq]
      exact List.Forall₂.cons (hrefl q) ih

/-! ### Plumbing for toggleReaction at store level -/

theorem toggleReaction_posts (s : StubState) (pid u : String) (r : Reaction) :
    (toggleReaction s pid u r).posts =
      updateFirst s.posts pid (fun p => applyReaction p u r) := by
  unfold toggleReaction
  cases hfind : findPost s.posts pid with
  | none =>
    simp only
    rw [updateFirst_of_forall_ne _ _ _ ((findPost_eq_none _ _).mp hfind)]
  | some p => simp only

theorem toggleReaction_comments (s : StubState) (pid u : String) (r : Reaction) :
    (toggleReaction s pid u r).comments = s.comments := by
  unfold toggleReaction
  cases findPost s.posts pid <;> simp only

theorem findPost_toggleReaction (s : StubState) (pid u : String) (r : Reaction) :
    findPost (toggleReaction s pid u r).posts pid =
      (findPost s.posts pid).map (fun p => applyReaction p u r) := by
  rw [toggleReaction_posts]
  exact findPost_updateFirst s.posts pid _ (fun p => applyReaction_id p u r)

/-! ### The comment map -/

theorem lookup_setComments_self (m : List (String × List Comment)) (pid : String)
    (cs : List Comment) : lookupComments (setComments m pid cs) pid = cs := by
  induction m with
  | nil => simp [setComments, lookupComments]
  | cons e rest ih =>
    by_cases he : e.fst = pid
    · simp [setComments, lookupComments, he]
    · simp [setComments, lookupComments, he, ih]

theorem lookup_setComments_other (m : List (String × List Comment)) (pid pid' : String)
    (cs : List Comment) (h : pid' ≠ pid) :
    lookupComments (setComments m pid cs) pid' = lookupComments m pid' := by
  have h2 : pid ≠ pid' := Ne.symm h
  induction m with
  | nil => simp [setComments, lookupComments, h2]
  | cons e rest ih =>
    by_cases he : e.fst = pid
    · simp [setComments, lookupComments, he, h2]
    · by_cases he2 : e.fst = pid'
      · simp [setComments, lookupComments, he, he2, h]
      · simp [setComments, lookupComments, he, he2, ih]

theorem fetchComments_length (s : StubState) (pid : String) :
    (fetchComments s pid).length = (lookupComments s.comments pid).length :=
  (List.mergeSort_perm _ _).length_eq

/-! ### Invariants along operation sequences -/

theorem runOps_cons (s : StubState) (op : Op) (ops : List Op) :
    runOps s (op :: ops) = runOps (step s op) ops := rfl

theorem countInv_step (s : StubState) (op : Op) (h : ∀ p ∈ s.posts, CountInv p) :
    ∀ p ∈ (step s op).posts, CountInv p := by
  cases op with
  | create a an t d mu mt ca now =>
    intro p hp
    simp only [step, createPost, submitDraft] at hp
    rcases List.mem_cons.mp hp with hq | hq
    · subst hq
      exact ⟨by simp [CountInv, userCard], by simp [CountInv, userCard]⟩
    · exact h p hq
  | react pid uid r =>
    intro p hp
    simp only [step] at hp
    rw [toggleReaction_posts] at hp
    rcases mem_updateFirst _ _ _ _ hp with hq | ⟨q, hq, _, rfl⟩
    · exact h p hq
    · exact countInv_applyReaction q uid r (h q hq)
  | comment pid c now =>
    intro p hp
    simp only [step, addComment] at hp
    rcases mem_updateFirst _ _ _ _ hp with hq | ⟨q, hq, _, rfl⟩
    · exact h p hq
    · exact h q hq

theorem countInv_runOps_aux (ops : List Op) :
    ∀ s : StubState, (∀ p ∈ s.posts, CountInv p) → ∀ p ∈ (runOps s ops).posts, CountInv p := by
  induction ops with
  | nil => intro s h; exact h
  | cons op rest ih => intro s h; exact ih (step s op) (countInv_step s op h)

theorem countInv_runOps (ops : List Op) :
    ∀ p ∈ (runOps initState ops).posts, CountInv p := by
  apply countInv_runOps_aux ops initState
  intro p hp
  simp [initState] at hp

/-- Comment-count invariant of a store state: stored post ids are pairwise distinct and
    every stored post's `commentCount` is the length of the comment log stored under its
    id. -/
def CommentInv (s : StubState) : Prop :=
  (s.posts.map Post.id).Nodup ∧
  ∀ p ∈ s.posts, p.commentCount = ((lookupComments s.comments p.id).length : Int)

theorem commentInv_step (s : StubState) (op : Op) (h : CommentInv s)
    (hf : freshHead s op = true) : CommentInv (step s op) := by
  cases op with
  | create a an t d mu mt ca now =>
    simp only [freshHead, Bool.and_eq_true, decide_eq_true_eq] at hf
    constructor
    · simp only [step, createPost, submitDraft, List.map_cons]
      exact List.nodup_cons.mpr ⟨hf.1, h.1⟩
    · intro p hp
      simp only [step, createPost, submitDraft] at hp ⊢
      rcases List.mem_cons.mp hp with hq | hq
      · subst hq
        simp only
        rw [hf.2]
        simp
      · exact h.2 p hq
  | react pid uid r =>
    constructor
    · simp only [step]
      rw [toggleReaction_posts,
        map_id_updateFirst _ _ _ (fun p => applyReaction_id p uid r)]
      exact h.1
    · intro p hp
      simp only [step] at hp ⊢
      rw [toggleReaction_posts] at hp
      rw [toggleReaction_comments]
      rcases mem_updateFirst _ _ _ _ hp with hq | ⟨q, hq, _, rfl⟩
      · exact h.2 p hq
      · rw [applyReaction_commentCount, applyReaction_id]
        exact h.2 q hq
  | comment pid c now =>
    constructor
    · simp only [step, addComment]
      rw [map_id_updateFirst]
      · exact h.1
      · intro p
        rfl
    · intro p hp
      simp only [step, addComment] at hp ⊢
      rcases mem_updateFirst_nodup _ _ _ _ h.1 hp with ⟨hq, hne⟩ | ⟨q, hq, hqid, rfl⟩
      · rw [lookup_setComments_other _ _ _ _ hne]
        exact h.2 p hq
      · have hid : ∀ n : Int, ({ q with commentCount := n } : Post).id = q.id :=
          fun n => rfl
        rw [hid, hqid, lookup_setComments_self]

theorem commentInv_runOps_aux (ops : List Op) :
    ∀ s : StubState, CommentInv s → freshCreates s ops = true →
      CommentInv (runOps s ops) := by
  induction ops with
  | nil => intro s h _; exact h
  | cons op rest ih =>
    intro s h hf
    simp only [freshCreates, Bool.and_eq_true] at hf
    exact ih (step s op) (commentInv_step s op h hf.1) hf.2

theorem commentInv_runOps (ops : List Op) (hf : freshCreates initState ops = true) :
    CommentInv (runOps initState ops) := by
  apply commentInv_runOps_aux ops initState _ hf
  constructor
  · simp [initState]
  · intro p hp
    simp [initState] at hp

/-! ### Concrete fixtures for witnesses and counterexamples -/

/-- Sample post for concrete scenarios: user u2 currently dislikes it; counts are
    consistent with the membership lists. -/
def post0 : Post :=
  { id := "p1", authorId := "u1", authorName := "Farmer One", title := "Rain advice",
    description := "", mediaUrl := none, mediaType := none, likeCount := 0,
    dislikeCount := 1, likedBy := [], dislikedBy := ["u2"], commentCount := 0,
    createdAt := 5 }

/-- Store holding just the sample post. -/
def store0 : StubState := { posts := [post0], comments := [] }

/-- Sample post draft (the create-post screen shape, zero-initialised). -/
def draft0 : PostDraft := submitDraft "u1" "Farmer One" "Rain advice" "" none none 5

/-- Sample comment draft with whitespace-only text. -/
def blankComment : CommentDraft :=
  { authorId := "u3", authorName := "U3", text := "   ", createdAt := 7 }

/-- Sample comment draft with real text. -/
def niceComment : CommentDraft :=
  { authorId := "u3", authorName := "U3", text := "Nice tip", createdAt := 9 }

/-! ### The claims -/

theorem toggleMany_cons (s : StubState) (pid u : String) (r : Reaction) (rs : List Reaction) :
    toggleMany s pid u (r :: rs) = toggleMany (toggleReaction s pid u r) pid u rs := rfl

theorem atMostOne_toggleMany_aux (pid u : String) (rs : List Reaction) :
    ∀ s : StubState, (∀ q, findPost s.posts pid = some q → atMostOne u q) →
      ∀ q, findPost (toggleMany s pid u rs).posts pid = some q → atMostOne u q := by
  induction rs with
  | nil => intro s h; exact h
  | cons r rest ih =>
    intro s h
    rw [toggleMany_cons]
    apply ih
    intro q hq
    rw [findPost_toggleReaction] at hq
    cases hfind : findPost s.posts pid with
    | none =>
      rw [hfind] at hq
      simp at hq
    | some p0 =>
      rw [hfind] at hq
      simp only [Option.map_some', Option.some.injEq] at hq
      exact hq ▸ atMostOne_applyReaction p0 u r

/-- C1: starting from a post in which user U is in neither membership list, after any
    sequence of toggleReaction calls for that post and that user, U appears in at most
    one of likedBy and dislikedBy. -/
theorem C1_mutual_exclusion (s : StubState) (pid u : String) (rs : List Reaction)
    (p : Post) (hp : findPost s.posts pid = some p)
    (h1 : u ∉ p.likedBy) (_h2 : u ∉ p.dislikedBy) :
    ∀ q, findPost (toggleMany s pid u rs).posts pid = some q → atMostOne u q := by
  apply atMostOne_toggleMany_aux pid u rs s
  intro q hq
  rw [hp, Option.some.injEq] at hq
  subst hq
  exact fun hc => h1 hc.1

/-- Witness for C1: in the sample store, user u3 is in neither list of post p1, and
    after toggling like then dislike, u3 sits only in the dislike list. -/
theorem C1_witness :
    findPost store0.posts "p1" = some post0 ∧
    ("u3" ∉ post0.likedBy ∧ "u3" ∉ post0.dislikedBy) ∧
    atMostOne "u3"
      { id := "p1", authorId := "u1", authorName := "Farmer One", title := "Rain advice",
        description := "", mediaUrl := none, mediaType := none, likeCount := 0,
        dislikeCount := 2, likedBy := [], dislikedBy := ["u2", "u3"], commentCount := 0,
        createdAt := 5 } := by
  refine ⟨by decide, ⟨by decide, by decide⟩, ?_⟩
  exact C1_mutual_exclusion store0 "p1" "u3" [Reaction.like, Reaction.dislike] post0
    (by decide) (by decide) (by decide) _ (by decide)

/-- C2: every operation the application issues (createPost with the zero-initialised
    submit draft, toggleReaction, addComment) preserves the equalities
    likeCount = |likedBy| and dislikeCount = |dislikedBy| for every stored post. -/
theorem C2_count_cardinality (s : StubState) (op : Op)
    (h : ∀ p ∈ s.posts, CountInv p) :
    ∀ p ∈ (step s op).posts, CountInv p :=
  countInv_step s op h

/-- Witness for C2: the sample store satisfies the count equalities and still does
    after a like toggle. -/
theorem C2_witness :
    (∀ p ∈ store0.posts, CountInv p) ∧
    ∀ p ∈ (step store0 (Op.react "p1" "u2" Reaction.like)).posts, CountInv p :=
  ⟨by decide, C2_count_cardinality store0 (Op.react "p1" "u2" Reaction.like) (by decide)⟩

/-- C3 (amended): toggling a reaction on a post id that is not in the store is a no-op
    that resolves normally; no NotFound error is signalled. -/
theorem C3_missing_post_noop (s : StubState) (pid u : String) (r : Reaction)
    (h : findPost s.posts pid = none) :
    toggleReactionOutcome s pid u r = Except.ok s := by
  unfold toggleReactionOutcome toggleReaction
  rw [h]

/-- Counterexample for C3 as stated: on the missing id the call does not signal
    NotFound; it resolves normally with the store unchanged. -/
theorem C3_counterexample :
    toggleReactionOutcome initState "missing-id" "u1" Reaction.like ≠
      Except.error FeedError.NotFound ∧
    toggleReactionOutcome initState "missing-id" "u1" Reaction.like =
      Except.ok initState := by
  constructor
  · intro hc
    exact Except.noConfusion hc
  · rfl

/-- Witness for C3's amended theorem at the spec's own scenario input. -/
theorem C3_witness :
    toggleReactionOutcome store0 "missing-id" "u1" Reaction.like = Except.ok store0 :=
  C3_missing_post_noop store0 "missing-id" "u1" Reaction.like (by decide)

/-- The post reached by creating a post at time 5 and having u2 dislike it. -/
def postW : Post :=
  { id := "post_5", authorId := "u1", authorName := "Farmer One", title := "Rain advice",
    description := "", mediaUrl := none, mediaType := none, likeCount := 0,
    dislikeCount := 1, likedBy := [], dislikedBy := ["u2"], commentCount := 0,
    createdAt := 5 }

/-- Operation sequence reaching a store in which u2 dislikes post post_5. -/
def opsW : List Op :=
  [Op.create "u1" "Farmer One" "Rain advice" "" none none 5 5,
   Op.react "post_5" "u2" Reaction.dislike]

/-- Counterexample for C4 as stated: in a reachable store where u2 dislikes post_5,
    toggling like twice does not restore u2's dislike; afterwards u2 is in neither
    list. -/
theorem C4_counterexample :
    (findPost (runOps initState opsW).posts "post_5").map Post.dislikedBy = some ["u2"] ∧
    (findPost (toggleReaction (toggleReaction (runOps initState opsW) "post_5" "u2"
        Reaction.like) "post_5" "u2" Reaction.like).posts "post_5").map Post.dislikedBy =
      some [] := by
  constructor
  · decide
  · decide

/-- C4 (amended): for a post of the program's store and a user that is not in the
    opposite membership list, toggling the same reaction twice in succession restores
    the post's reaction state as it concerns that user: membership in both lists and
    both counts. -/
theorem C4_pair_law (ops : List Op) (pid u : String) (k : Reaction) (p : Post)
    (hp : findPost (runOps initState ops).posts pid = some p)
    (hno : u ∉ otherList k p) :
    findPost (toggleReaction (toggleReaction (runOps initState ops) pid u k) pid u k).posts
        pid = some (applyReaction (applyReaction p u k) u k) ∧
    (u ∈ (applyReaction (applyReaction p u k) u k).likedBy ↔ u ∈ p.likedBy) ∧
    (u ∈ (applyReaction (applyReaction p u k) u k).dislikedBy ↔ u ∈ p.dislikedBy) ∧
    (applyReaction (applyReaction p u k) u k).likeCount = p.likeCount ∧
    (applyReaction (applyReaction p u k) u k).dislikeCount = p.dislikeCount := by
  have hinv : CountInv p := countInv_runOps ops p (findPost_some _ _ _ hp).1
  refine ⟨?_, ?_⟩
  · rw [findPost_toggleReaction, findPost_toggleReaction, hp]
    rfl
  cases k with
  | like =>
    have hpair := toggleCore_pair
      ⟨p.likedBy, p.likeCount, p.dislikedBy, p.dislikeCount⟩ u hno hinv.1
    refine ⟨hpair.2.2.2, ?_, hpair.2.2.1, hpair.2.1⟩
    show u ∈ (toggleCore (toggleCore
      ⟨p.likedBy, p.likeCount, p.dislikedBy, p.dislikeCount⟩ u) u).other ↔ u ∈ p.dislikedBy
    rw [hpair.1]
  | dislike =>
    have hpair := toggleCore_pair
      ⟨p.dislikedBy, p.dislikeCount, p.likedBy, p.likeCount⟩ u hno hinv.2
    refine ⟨?_, hpair.2.2.2, hpair.2.1, hpair.2.2.1⟩
    show u ∈ (toggleCore (toggleCore
      ⟨p.dislikedBy, p.dislikeCount, p.likedBy, p.likeCount⟩ u) u).other ↔ u ∈ p.likedBy
    rw [hpair.1]

/-- Witness for C4's amended theorem: u2 dislikes post_5 and is not in the like list;
    toggling dislike twice restores the state. -/
theorem C4_witness :
    findPost (toggleReaction (toggleReaction (runOps initState opsW) "post_5" "u2"
        Reaction.dislike) "post_5" "u2" Reaction.dislike).posts "post_5" =
      some (applyReaction (applyReaction postW "u2" Reaction.dislike) "u2"
        Reaction.dislike) ∧
    ("u2" ∈ (applyReaction (applyReaction postW "u2" Reaction.dislike) "u2"
        Reaction.dislike).likedBy ↔ "u2" ∈ postW.likedBy) ∧
    ("u2" ∈ (applyReaction (applyReaction postW "u2" Reaction.dislike) "u2"
        Reaction.dislike).dislikedBy ↔ "u2" ∈ postW.dislikedBy) ∧
    (applyReaction (applyReaction postW "u2" Reaction.dislike) "u2"
        Reaction.dislike).likeCount = postW.likeCount ∧
    (applyReaction (applyReaction postW "u2" Reaction.dislike) "u2"
        Reaction.dislike).dislikeCount = postW.dislikeCount :=
  C4_pair_law opsW "post_5" "u2" Reaction.dislike postW (by decide) (by decide)

/-- C5: in the program's store, when user U dislikes post P and does not like it,
    toggling like moves U to the like list and out of the dislike list, incrementing
    likeCount by exactly one and decrementing dislikeCount by exactly one. -/
theorem C5_switch_law (ops : List Op) (pid u : String) (p : Post)
    (hp : findPost (runOps initState ops).posts pid = some p)
    (h1 : u ∈ p.dislikedBy) (h2 : u ∉ p.likedBy) :
    findPost (toggleReaction (runOps initState ops) pid u Reaction.like).posts pid =
      some (applyReaction p u Reaction.like) ∧
    u ∈ (applyReaction p u Reaction.like).likedBy ∧
    u ∉ (applyReaction p u Reaction.like).dislikedBy ∧
    (applyReaction p u Reaction.like).dislikeCount = p.dislikeCount - 1 ∧
    (applyReaction p u Reaction.like).likeCount = p.likeCount + 1 := by
  have hinv : CountInv p := countInv_runOps ops p (findPost_some _ _ _ hp).1
  have hsw := toggleCore_switch
    ⟨p.likedBy, p.likeCount, p.dislikedBy, p.dislikeCount⟩ u h1 h2 hinv.2
  refine ⟨?_, hsw.1, hsw.2.1, hsw.2.2.2, hsw.2.2.1⟩
  rw [findPost_toggleReaction, hp]
  rfl

/-- Witness for C5 at the reachable store where u2 dislikes post_5. -/
theorem C5_witness :
    findPost (toggleReaction (runOps initState opsW) "post_5" "u2" Reaction.like).posts
        "post_5" = some (applyReaction postW "u2" Reaction.like) ∧
    "u2" ∈ (applyReaction postW "u2" Reaction.like).likedBy ∧
    "u2" ∉ (applyReaction postW "u2" Reaction.like).dislikedBy ∧
    (applyReaction postW "u2" Reaction.like).dislikeCount = postW.dislikeCount - 1 ∧
    (applyReaction postW "u2" Reaction.like).likeCount = postW.likeCount + 1 :=
  C5_switch_law opsW "post_5" "u2" postW (by decide) (by decide) (by decide)

/-- Counterexample for C6 as stated: on whitespace-only text (every character of the
    text is whitespace, so its trim is empty) the call does not fail with EmptyText; it
    resolves normally and mutates state (commentCount becomes 1). -/
theorem C6_counterexample :
    blankComment.text.data.all Char.isWhitespace = true ∧
    addCommentOutcome store0 "p1" blankComment 7 ≠ Except.error FeedError.EmptyText ∧
    (findPost (addComment store0 "p1" blankComment 7).posts "p1").map Post.commentCount =
      some 1 := by
  refine ⟨by decide, ?_, by decide⟩
  intro hc
  exact Except.noConfusion hc

/-- C6 (amended): addComment never fails, whatever the text and whether or not the post
    exists: the call resolves normally, appends the minted comment to the log under the
    given post id, leaves every other log unchanged, and sets the found post's
    commentCount (if any) to the stored log length. -/
theorem C6_addComment_total (s : StubState) (pid : String) (c : CommentDraft) (now : Int) :
    addCommentOutcome s pid c now = Except.ok (addComment s pid c now) ∧
    lookupComments (addComment s pid c now).comments pid =
      lookupComments s.comments pid ++
        [{ id := "cmt_" ++ toString now, authorId := c.authorId, authorName := c.authorName,
           text := c.text, createdAt := c.createdAt }] ∧
    (∀ pid2 : String, pid2 ≠ pid →
      lookupComments (addComment s pid c now).comments pid2 =
        lookupComments s.comments pid2) ∧
    findPost (addComment s pid c now).posts pid =
      (findPost s.posts pid).map
        (fun p => { p with
          commentCount := ((lookupComments s.comments pid).length : Int) + 1 }) := by
  refine ⟨rfl, ?_, ?_, ?_⟩
  · exact lookup_setComments_self s.comments pid _
  · intro pid2 hne
    exact lookup_setComments_other s.comments pid pid2 _ hne
  · show findPost (updateFirst s.posts pid _) pid = _
    rw [findPost_updateFirst]
    · cases findPost s.posts pid with
      | none => rfl
      | some p =>
        simp only [Option.map_some', Option.some.injEq]
        congr 1
        simp
    · intro p
      rfl

/-- Witness for C6's amended theorem: adding a real comment to the sample store. -/
theorem C6_witness :
    addCommentOutcome store0 "p1" niceComment 9 =
      Except.ok (addComment store0 "p1" niceComment 9) ∧
    lookupComments (addComment store0 "p1" niceComment 9).comments "p1" =
      lookupComments store0.comments "p1" ++
        [{ id := "cmt_" ++ toString (9 : Int), authorId := niceComment.authorId,
           authorName := niceComment.authorName, text := niceComment.text,
           createdAt := niceComment.createdAt }] ∧
    lookupComments (addComment store0 "p1" niceComment 9).comments "other" =
      lookupComments store0.comments "other" ∧
    findPost (addComment store0 "p1" niceComment 9).posts "p1" =
      (findPost store0.posts "p1").map
        (fun p => { p with
          commentCount := ((lookupComments store0.comments "p1").length : Int) + 1 }) := by
  have h := C6_addComment_total store0 "p1" niceComment 9
  exact ⟨h.1, h.2.1, h.2.2.1 "other" (by decide), h.2.2.2⟩

/-- Operation sequence reaching a store with a post and one comment on it. -/
def opsC7 : List Op :=
  [Op.create "u1" "Farmer One" "Rain advice" "" none none 5 5,
   Op.comment "post_5" niceComment 9]

/-- The post reached by opsC7. -/
def postC7 : Post :=
  { id := "post_5", authorId := "u1", authorName := "Farmer One", title := "Rain advice",
    description := "", mediaUrl := none, mediaType := none, likeCount := 0,
    dislikeCount := 0, likedBy := [], dislikedBy := [], commentCount := 1,
    createdAt := 5 }

/-- Operation sequence in which a comment is logged under an id that a later create
    call then mints for a new post. -/
def opsBad : List Op :=
  [Op.comment "post_5" niceComment 1,
   Op.create "u1" "Farmer One" "Rain advice" "" none none 5 5]

/-- Counterexample for C7 as stated: after opsBad the stored post post_5 has
    commentCount 0 while fetchComments returns one comment. -/
theorem C7_counterexample :
    (findPost (runOps initState opsBad).posts "post_5").map Post.commentCount = some 0 ∧
    (fetchComments (runOps initState opsBad) "post_5").length = 1 := by
  constructor
  · decide
  · rw [fetchComments_length]
    decide

/-- C7 (amended): after any operation sequence from the empty store in which every
    create call mints a fresh id (no stored post and no stored comment log already
    uses it), every stored post's commentCount equals the number of comments
    fetchComments returns for it. -/
theorem C7_comment_count (ops : List Op) (hf : freshCreates initState ops = true) :
    ∀ p ∈ (runOps initState ops).posts,
      p.commentCount = ((fetchComments (runOps initState ops) p.id).length : Int) := by
  intro p hp
  rw [fetchComments_length]
  exact (commentInv_runOps ops hf).2 p hp

/-- Witness for C7: a fresh create followed by one comment yields commentCount 1,
    matching the fetched comment list. -/
theorem C7_witness :
    freshCreates initState opsC7 = true ∧
    postC7 ∈ (runOps initState opsC7).posts ∧
    postC7.commentCount = ((fetchComments (runOps initState opsC7) postC7.id).length : Int) :=
  ⟨by decide, by decide, C7_comment_count opsC7 (by decide) postC7 (by decide)⟩

/-- C8: fetchPosts returns exactly the stored posts (a permutation, so each stored post
    appears with its multiplicity) ordered by createdAt descending: every adjacent pair
    is non-increasing in createdAt. -/
theorem C8_fetchPosts_sorted (s : StubState) :
    (fetchPosts s).Perm s.posts ∧
    List.Chain' (fun a b => b.createdAt ≤ a.createdAt) (fetchPosts s) := by
  constructor
  · exact List.mergeSort_perm s.posts postLe
  · apply List.Pairwise.chain'
    have htrans : ∀ a b c : Post,
        postLe a b = true → postLe b c = true → postLe a c = true := by
      intro a b c
      simp only [postLe, decide_eq_true_eq]
      omega
    have htotal : ∀ a b : Post, (postLe a b || postLe b a) = true := by
      intro a b
      simp only [postLe, Bool.or_eq_true, decide_eq_true_eq]
      omega
    have hs := List.sorted_mergeSort htrans htotal s.posts
    exact hs.imp (fun h => by simpa [postLe] using h)

/-- Counterexample for C9 as stated: two create calls at the same clock reading return
    the same id, and the second returned id is already the id of a stored post. -/
theorem C9_counterexample :
    (createPost (createPost initState draft0 5).2 draft0 5).1 =
      (createPost initState draft0 5).1 ∧
    (createPost (createPost initState draft0 5).2 draft0 5).1 ∈
      ((createPost initState draft0 5).2).posts.map Post.id := by
  constructor
  · rfl
  · decide

/-- C9 (amended): when the minted id post_(now) is not already the id of a stored post,
    createPost returns an id distinct from every stored post's id, a subsequent
    fetchPosts lists a post with that id, and a further create call whose own minted id
    is fresh returns a different id. -/
theorem C9_create_unique_id (s : StubState) (draft : PostDraft) (now : Int)
    (h : ("post_" ++ toString now) ∉ s.posts.map Post.id) :
    (createPost s draft now).1 ∉ s.posts.map Post.id ∧
    (createPost s draft now).1 ∈ (fetchPosts (createPost s draft now).2).map Post.id ∧
    ∀ (draft2 : PostDraft) (now2 : Int),
      ("post_" ++ toString now2) ∉ ((createPost s draft now).2).posts.map Post.id →
      (createPost (createPost s draft now).2 draft2 now2).1 ≠ (createPost s draft now).1 := by
  have hmem : (createPost s draft now).1 ∈ ((createPost s draft now).2).posts.map Post.id := by
    simp [createPost]
  refine ⟨h, ?_, ?_⟩
  · have hperm := (List.mergeSort_perm ((createPost s draft now).2).posts postLe).map Post.id
    exact hperm.mem_iff.mpr hmem
  · intro d2 n2 h2 heq
    apply h2
    show ("post_" ++ toString n2) ∈ _
    have : ("post_" ++ toString n2) = (createPost (createPost s draft now).2 d2 n2).1 := rfl
    rw [this, heq]
    exact hmem

/-- Witness for C9: creating into the empty store at time 5, then again at time 6. -/
theorem C9_witness :
    (createPost initState draft0 5).1 ∉ initState.posts.map Post.id ∧
    (createPost initState draft0 5).1 ∈
      (fetchPosts (createPost initState draft0 5).2).map Post.id ∧
    (createPost (createPost initState draft0 5).2 draft0 6).1 ≠
      (createPost initState draft0 5).1 := by
  have h := C9_create_unique_id initState draft0 5 (by decide)
  exact ⟨h.1, h.2.1, h.2.2 draft0 6 (by decide)⟩

/-- Frame relation between a pre-state post and the corresponding post-state post of a
    toggleReaction call: all non-reaction fields agree, and a post whose id differs
    from the toggled id is wholly unchanged. -/
def PostFrame (pid : String) (p q : Post) : Prop :=
  q.id = p.id ∧ q.authorId = p.authorId ∧ q.authorName = p.authorName ∧
  q.title = p.title ∧ q.description = p.description ∧ q.mediaUrl = p.mediaUrl ∧
  q.mediaType = p.mediaType ∧ q.commentCount = p.commentCount ∧
  q.createdAt = p.createdAt ∧ (p.id ≠ pid → q = p)

/-- C10: toggleReaction changes at most the reaction fields of the post with the given
    id: the comment store is untouched, the post list keeps its shape (positionwise
    relation), every non-reaction field of every post is unchanged, and every post
    whose id differs from the target id is entirely unchanged. -/
theorem C10_frame (s : StubState) (pid u : String) (r : Reaction) :
    (toggleReaction s pid u r).comments = s.comments ∧
    List.Forall₂ (PostFrame pid) s.posts (toggleReaction s pid u r).posts := by
  refine ⟨toggleReaction_comments s pid u r, ?_⟩
  rw [toggleReaction_posts]
  apply forall2_updateFirst
  · intro p
    exact ⟨rfl, rfl, rfl, rfl, rfl, rfl, rfl, rfl, rfl, fun _ => rfl⟩
  · intro p hpid
    have hfr := applyReaction_frame p u r
    exact ⟨hfr.1, hfr.2.1, hfr.2.2.1, hfr.2.2.2.1, hfr.2.2.2.2.1, hfr.2.2.2.2.2.1,
      hfr.2.2.2.2.2.2.1, hfr.2.2.2.2.2.2.2.1, hfr.2.2.2.2.2.2.2.2,
      fun hne => absurd hpid hne⟩

end FarmerPro
